import Mathlib

/-!
Verification model of `layeredconfig.py` (class `LayeredConfig`).

The Python class wraps an ordered list of duck-typed "sources"
(priority increasing with index).  We embed a source shallowly as a
record of its capability functions (`has`, `typed`, `get`,
`typevalue`), its flags (`writable`, `dirty`), its stable
`identifier`, its upward parent chain of sources (the Python
`source.parent` links, flattened into a list, nearest parent first),
and its named subsections.  A numeric `sid` gives each source record
an identity so that mutation effects can refer to it.

Mutating operations (`__setattr__`, `LayeredConfig.write`,
`LayeredConfig.set`) are modelled as functions returning the list of
effects they perform on the underlying source objects, in order:
`setCall sid key v` for `source.set(key, v)`, `markDirty sid` for
`source.dirty = True`, `save sid` for `source.save()`.  Replay
functions (`applyDirty`, `applyValues`) recover the final flag/value
state from an initial state and an effect trace; by the source
contract (§4.1 of the spec) `set` itself never changes `dirty`, which
is why the replay of a `setCall` leaves the dirty state alone.

The scope's own `_parent` chain is passed explicitly: an operation on
a scope takes the scope's data plus the list of its ancestor scopes,
nearest first (empty for the root).  This is the pure-data rendering
of the upward-only `_parent` back-references.
-/

/-- Configuration values.  The core treats values opaquely; strings and
integers are enough to express the typed-coercion scenarios of the spec. -/
inductive Value where
  | vStr (s : String)
  | vInt (n : Int)
deriving DecidableEq

/-- The capability record of one source object at one nesting level:
`hasF`/`typedF`/`getF`/`typevalueF` are the Python `has`, `typed`,
`get`, `typevalue` methods; `writable`, `dirty`, `identifier` the
like-named attributes; `cascadeFlag` records the cascade argument the
source was constructed with (stored, never consulted by the core);
`sid` is the record's identity for effect traces. -/
structure SourceProps where
  sid : Nat
  identifier : String
  writable : Bool
  dirty : Bool
  cascadeFlag : Bool
  hasF : String → Bool
  typedF : String → Bool
  getF : String → Value
  typevalueF : String → Value → Value

/-- A source object: its own properties, its chain of enclosing parent
sources (`source.parent`, then `source.parent.parent`, ...), and its
named subsections.  A source that does not support subsections is
modelled with an empty `subs` list (the spec treats absence of the
capability as "no subsections"). -/
inductive Source where
  | mk (props : SourceProps) (parents : List SourceProps)
      (subs : List (String × Source))

def Source.props : Source → SourceProps
  | .mk p _ _ => p

def Source.parents : Source → List SourceProps
  | .mk _ ps _ => ps

def Source.subs : Source → List (String × Source)
  | .mk _ _ s => s

/-- `src.subsections()`: the names of the source's subsections. -/
def Source.subNames (s : Source) : List String :=
  s.subs.map Prod.fst

/-- `src.subsection(k)`: the nested source registered under `k`
(first match), or `none` when there is none. -/
def Source.subsection (s : Source) (k : String) : Option Source :=
  (s.subs.find? (fun p => p.1 == k)).map Prod.snd

/-- One `LayeredConfig` scope as seen by the resolution algorithms:
its `_sources`, the names registered in `_subsections`, and the
`_cascade` / `_writable` flags.  The `_parent` chain is passed
separately as a list of ancestor `ScopeData`, nearest first. -/
structure ScopeData where
  sources : List Source
  subsectionNames : List String
  cascade : Bool
  writable : Bool

/-- The error raised by the core: `AttributeError("Configuration key
%s doesn't exist" % name)`. -/
inductive ConfErr where
  | attributeError (key : String)
deriving DecidableEq

/-- Result of attribute-style get: either a plain value, or the child
scope registered under the looked-up subsection name (we return the
name; the child itself is determined by the scope's subsection map). -/
inductive GetResult where
  | value (v : Value)
  | subsection (name : String)
deriving DecidableEq

/-- The inner `while not done` loop of `__getattribute__` step 2: test
`source.has(name)`; on failure, if `cascade` climb to `source.parent`
and retry; stop at the first hit or at the end of the parent chain. -/
def findInChain (cascade : Bool) (k : String) :
    SourceProps → List SourceProps → Option SourceProps
  | p, ps =>
    if p.hasF k then some p
    else if cascade then
      match ps with
      | q :: rest => findInChain cascade k q rest
      | [] => none
    else none

/-- The outer `for source in reversed(self._sources)` loop of
`__getattribute__`: scan sources from highest to lowest priority
(later list entries first), running `findInChain` on each, and stop at
the first source (original or ancestor via `source.parent`) where the
key is found — the value source. -/
def scanSources (cascade : Bool) (k : String) : List Source → Option SourceProps
  | [] => none
  | src :: rest =>
    match scanSources cascade k rest with
    | some r => some r
    | none => findInChain cascade k src.props src.parents

/-- The inner `for typesource in reversed(this._sources)` loop of the
type search: highest-priority source of one scope with
`typed(name)` true.  (No `source.parent` climbing here: the Python
loop tests only the listed sources.) -/
def findTypeLocal (k : String) : List Source → Option SourceProps
  | [] => none
  | src :: rest =>
    match findTypeLocal k rest with
    | some r => some r
    | none => if src.props.typedF k then some src.props else none

/-- The `while not done` type-search loop: scan the current scope's
sources for one typed for `k`; when none is found, move `this` to
`this._parent` — but only when `self._cascade` holds (the flag of the
scope the lookup started from, passed here as `cascade`). -/
def findTypeSource (cascade : Bool) (k : String) : List ScopeData → Option SourceProps
  | [] => none
  | s :: rest =>
    match findTypeLocal k s.sources with
    | some r => some r
    | none => if cascade then findTypeSource cascade k rest else none

/-- The `if found:` branch of `__getattribute__`: the value source's
typed value when it is typed for `k` itself; otherwise the type
source's coercion `typesource.typevalue(name, source.get(name))` of
the raw value when a type source exists in the climb, and the raw
value unchanged when none does.  `chain` is the current scope followed
by its ancestors. -/
def resolveFound (cascade : Bool) (k : String) (vs : SourceProps)
    (chain : List ScopeData) : Value :=
  if vs.typedF k then vs.getF k
  else
    match findTypeSource cascade k chain with
    | some ts => ts.typevalueF k (vs.getF k)
    | none => vs.getF k

/-- One level of `LayeredConfig.__getattribute__(self, name)` for a
configuration key (a name not starting with an underscore): subsection
names shadow keys; otherwise find the value source by the
reverse-priority scan and resolve its value (with typed recovery);
when nothing is found, `delegate` stands for the result of
`self._parent.__getattribute__(name)` and is used only when `cascade`
holds and the scope has a parent (the caller passes the
`AttributeError` outcome when there is no parent, matching the fall
through to `raise`). -/
def getattrStep (k : String) (s : ScopeData) (anc : List ScopeData)
    (delegate : Except ConfErr GetResult) : Except ConfErr GetResult :=
  if s.subsectionNames.contains k then .ok (.subsection k)
  else
    match scanSources s.cascade k s.sources with
    | some vs => .ok (.value (resolveFound s.cascade k vs (s :: anc)))
    | none => if s.cascade then delegate else .error (.attributeError k)

/-- `LayeredConfig.__getattribute__` with the `_parent` chain passed
explicitly: each level runs `getattrStep`, delegating to the next
ancestor; at the root the delegate is the `AttributeError` outcome
(with no parent the method falls through to `raise` even under
cascade). -/
def getattrChain (k : String) : ScopeData → List ScopeData → Except ConfErr GetResult
  | s, [] => getattrStep k s [] (.error (.attributeError k))
  | s, p :: rest => getattrStep k s (p :: rest) (getattrChain k p rest)

/-- An observable mutation performed on a source object. -/
inductive Effect where
  | setCall (sid : Nat) (key : String) (v : Value)
  | markDirty (sid : Nat)
  | save (sid : Nat)
deriving DecidableEq

/-- Step 1 of `__setattr__`: the highest-priority source with
`writable` true (scan in reverse order, first hit). -/
def findWritable : List Source → Option Source
  | [] => none
  | src :: rest =>
    match findWritable rest with
    | some r => some r
    | none => if src.props.writable then some src else none

/-- Step 2 of `__setattr__`: the highest-priority source with
`has(name)` or `typed(name)` true (scan in reverse order, first hit;
no `source.parent` climbing). -/
def findDefining (k : String) : List Source → Option Source
  | [] => none
  | src :: rest =>
    match findDefining k rest with
    | some r => some r
    | none => if src.props.hasF k || src.props.typedF k then some src else none

/-- The effects of step 1 of `__setattr__`: when a writable source
exists, set the value on it, mark it dirty, then climb its
`source.parent` chain marking dirty at each level; when none exists
the step performs nothing. -/
def writeEffects (k : String) (v : Value) (srcs : List Source) : List Effect :=
  match findWritable srcs with
  | some w =>
    Effect.setCall w.props.sid k v :: Effect.markDirty w.props.sid ::
      w.parents.map (fun p => Effect.markDirty p.sid)
  | none => []

/-- One level of `LayeredConfig.__setattr__(self, name, value)` for a
configuration key: run step 1 (write target, `writeEffects`)
unconditionally, then step 2 (existence/typing target): set on the
defining source when one exists; otherwise delegate to the parent
scope when `cascade` holds and one exists (the parent call's effects
follow the local step-1 effects), else raise `AttributeError`.
Returns the effect trace together with the error, if any, raised at
the end. -/
def setattrStep (k : String) (v : Value) (s : ScopeData)
    (delegate : List Effect × Option ConfErr) : List Effect × Option ConfErr :=
  match findDefining k s.sources with
  | some d => (writeEffects k v s.sources ++ [Effect.setCall d.props.sid k v], none)
  | none =>
    if s.cascade then (writeEffects k v s.sources ++ delegate.1, delegate.2)
    else (writeEffects k v s.sources, some (ConfErr.attributeError k))

/-- `LayeredConfig.__setattr__` with the `_parent` chain passed
explicitly: each level runs `setattrStep`, delegating to the next
ancestor; at the root the delegate is no-effects-plus-`AttributeError`
(with no parent the method falls through to `raise` even under
cascade). -/
def setattrChain (k : String) (v : Value) :
    ScopeData → List ScopeData → List Effect × Option ConfErr
  | s, [] => setattrStep k v s ([], some (ConfErr.attributeError k))
  | s, p :: rest => setattrStep k v s (setattrChain k v p rest)

/-- The `while root._parent: root = root._parent` climb of
`LayeredConfig.write`: the last scope of the chain (the scope itself
when it has no ancestors). -/
def rootScope : ScopeData → List ScopeData → ScopeData
  | s, [] => s
  | _, p :: rest => rootScope p rest

/-- `LayeredConfig.write(config)`: climb to the root scope and call
`save()` on each of its directly attached sources whose `writable` and
`dirty` flags are both true, in list order. -/
def writeConfig (s : ScopeData) (anc : List ScopeData) : List Effect :=
  (rootScope s anc).sources.foldl
    (fun acc src =>
      if src.props.writable && src.props.dirty then
        acc ++ [Effect.save src.props.sid]
      else acc) []

/-- `LayeredConfig.set(config, key, value, sourceid)`: call
`source.set(key, value)` on every source of the scope whose
`identifier` equals `sourceid`, in list order, marking nothing dirty;
when no source matches, the loop performs nothing and the call returns
silently (the function is total: no error is ever raised). -/
def setDirect (s : ScopeData) (k : String) (v : Value) (sourceid : String) : List Effect :=
  s.sources.foldl
    (fun acc src =>
      if src.props.identifier == sourceid then
        acc ++ [Effect.setCall src.props.sid k v]
      else acc) []

/-- Modelled from the spec: the empty-placeholder constructor
`src.__class__(parent=src, identifier=src.identifier,
writable=src.writable, cascade=self._cascade)`.  The concrete source
classes (Defaults, INIFile, Commandline, ...) are not part of src/;
per §4.1 the constructor must "produce a valid but empty Source
instance of the same concrete kind" given parent, identifier, writable
and cascade.  Empty: no keys, no typing, no subsections, not dirty;
the parent chain is the given source followed by its own chain.  The
`sid` is inherited-from-parent only as a modelling convenience (no
claim inspects a placeholder's identity). -/
def emptyPlaceholder (src : Source) (cascade : Bool) : Source :=
  .mk
    { sid := src.props.sid
      identifier := src.props.identifier
      writable := src.props.writable
      dirty := false
      cascadeFlag := cascade
      hasF := fun _ => false
      typedF := fun _ => false
      getF := fun _ => Value.vStr ""
      typevalueF := fun _ v => v }
    (src.props :: src.parents)
    []

/-- The inner dedup of `__init__` step 1: append each name not already
collected, preserving first-seen order. -/
def addKeys (acc : List String) : List String → List String
  | [] => acc
  | k :: rest => addKeys (if k ∈ acc then acc else acc ++ [k]) rest

/-- Step 1 of `__init__`: the union of all sources' subsection names,
in first-seen order, de-duplicated. -/
def collectKeys (sources : List Source) : List String :=
  sources.foldl (fun acc src => addKeys acc src.subNames) []

/-- Step 2 of `__init__` for one subsection name `k`: one entry per
source, in order — the source's own subsection when `k` is among its
subsection names, otherwise a freshly constructed empty placeholder
with that source as parent and the scope's cascade flag. -/
def childSources (sources : List Source) (k : String) (cascade : Bool) : List Source :=
  sources.map (fun src =>
    match src.subsection k with
    | some sub => sub
    | none => emptyPlaceholder src cascade)

/-- A constructed `LayeredConfig` object: `_sources`, the
`_subsections` ordered mapping, the `_cascade` / `_writable` flags and
the `_sectionkey` under which the scope sits in its parent (`none` at
the root).  The `_parent` back-reference is implicit in the nesting. -/
inductive Config where
  | mk (sources : List Source) (subsections : List (String × Config))
      (cascade : Bool) (writable : Bool) (sectionkey : Option String)

def Config.sources : Config → List Source
  | .mk s _ _ _ _ => s

def Config.subsections : Config → List (String × Config)
  | .mk _ su _ _ _ => su

def Config.cascade : Config → Bool
  | .mk _ _ c _ _ => c

def Config.writable : Config → Bool
  | .mk _ _ _ w _ => w

def Config.sectionkey : Config → Option String
  | .mk _ _ _ _ sk => sk

/-- `LayeredConfig.__init__`: record sources and flags, collect the
union of subsection names, and build one child scope per name from the
per-source subsection list, with the same cascade/writable flags and
the name as the child's sectionkey.  The Python recursion terminates
because subsection trees are finite; `fuel` bounds the recursion depth
(every claim below concerns the first level and holds for every
positive fuel, so the bound is never reached). -/
def mkConfig : Nat → List Source → Bool → Bool → Option String → Config
  | 0, sources, cascade, writable, sk => .mk sources [] cascade writable sk
  | fuel + 1, sources, cascade, writable, sk =>
    .mk sources
      ((collectKeys sources).map (fun k =>
        (k, mkConfig fuel (childSources sources k cascade) cascade writable (some k))))
      cascade writable sk

/-- Replay of the dirty flags: `markDirty sid` sets the flag of `sid`
to true; `setCall` and `save` leave dirty flags alone (the §4.1
contract: `set` must not itself alter `dirty`). -/
def applyDirty (d : Nat → Bool) : List Effect → Nat → Bool
  | [] => d
  | .markDirty j :: rest => applyDirty (fun x => if x = j then true else d x) rest
  | .setCall _ _ _ :: rest => applyDirty d rest
  | .save _ :: rest => applyDirty d rest

/-- Replay of the stored values: `setCall sid key v` stores `v` under
`key` on source `sid`; the other effects leave values alone. -/
def applyValues (st : Nat → String → Option Value) :
    List Effect → Nat → String → Option Value
  | [] => st
  | .setCall j k2 v :: rest =>
    applyValues (fun i k => if i = j ∧ k = k2 then some v else st i k) rest
  | .markDirty _ :: rest => applyValues st rest
  | .save _ :: rest => applyValues st rest

/-- The sids marked dirty by a trace, in order. -/
def dirtyIds : List Effect → List Nat
  | [] => []
  | .markDirty j :: rest => j :: dirtyIds rest
  | .setCall _ _ _ :: rest => dirtyIds rest
  | .save _ :: rest => dirtyIds rest


deriving instance DecidableEq for Except

/-! ## Concrete fixtures (used by the witness theorems) -/

/-- A typed coercion used by the fixture sources: the string forms of
the spec examples coerce to the corresponding integers. -/
def intCoerce : Value → Value
  | .vStr "5" => .vInt 5
  | .vStr "7" => .vInt 7
  | .vStr _ => .vInt 0
  | .vInt n => .vInt n

/-- A typed low-priority defaults source: carries `parameter` with an
integer value and typing information for it. -/
def exDefaults : Source := .mk
  { sid := 1, identifier := "defaults", writable := false, dirty := false,
    cascadeFlag := false,
    hasF := fun k => k == "parameter", typedF := fun k => k == "parameter",
    getF := fun _ => Value.vInt 5, typevalueF := fun _ v => intCoerce v }
  [] []

/-- An untyped high-priority command-line source: carries `parameter`
as the raw string `"7"`, writable. -/
def exCmdline : Source := .mk
  { sid := 2, identifier := "cmdline", writable := true, dirty := false,
    cascadeFlag := false,
    hasF := fun k => k == "parameter", typedF := fun _ => false,
    getF := fun _ => Value.vStr "7", typevalueF := fun _ v => v }
  [] []

/-- A two-source scope: defaults below, command line on top. -/
def exScope : ScopeData :=
  { sources := [exDefaults, exCmdline], subsectionNames := [],
    cascade := false, writable := true }

/-- An empty source (nothing defined, not writable for reads). -/
def exEmptySrc : Source := .mk
  { sid := 3, identifier := "ini", writable := true, dirty := false,
    cascadeFlag := true,
    hasF := fun _ => false, typedF := fun _ => false,
    getF := fun _ => Value.vStr "", typevalueF := fun _ v => v }
  [] []

/-- A child scope with one empty source, cascade enabled. -/
def exChildScope : ScopeData :=
  { sources := [exEmptySrc], subsectionNames := [],
    cascade := true, writable := true }

/-- Properties of an enclosing physical file source (the
`source.parent` of a nested source). -/
def exFileProps : SourceProps :=
  { sid := 9, identifier := "inifile", writable := true, dirty := false,
    cascadeFlag := false,
    hasF := fun _ => false, typedF := fun _ => false,
    getF := fun _ => Value.vStr "", typevalueF := fun _ v => v }

/-- A writable nested source defining nothing, whose parent chain is
the enclosing file source. -/
def exNested : Source := .mk
  { sid := 4, identifier := "inifile", writable := true, dirty := false,
    cascadeFlag := false,
    hasF := fun _ => false, typedF := fun _ => false,
    getF := fun _ => Value.vStr "", typevalueF := fun _ v => v }
  [exFileProps] []

/-- A scope whose writable source (`exNested`) differs from the source
defining `parameter` (`exDefaults`). -/
def exScopeWD : ScopeData :=
  { sources := [exDefaults, exNested], subsectionNames := [],
    cascade := false, writable := true }

/-- A cascade-disabled scope with one writable source defining no keys. -/
def exScopeW6 : ScopeData :=
  { sources := [exNested], subsectionNames := [],
    cascade := false, writable := true }

/-- A cascade-enabled child scope with one writable source defining no
keys (delegation fixture). -/
def exScopeC9 : ScopeData :=
  { sources := [exNested], subsectionNames := [],
    cascade := true, writable := true }

/-- A writable, dirty source (must be saved by `write`). -/
def exDirtyW : Source := .mk
  { sid := 5, identifier := "w1", writable := true, dirty := true,
    cascadeFlag := false,
    hasF := fun _ => false, typedF := fun _ => false,
    getF := fun _ => Value.vStr "", typevalueF := fun _ v => v }
  [] []

/-- A writable but clean source (must not be saved by `write`). -/
def exCleanW : Source := .mk
  { sid := 6, identifier := "w2", writable := true, dirty := false,
    cascadeFlag := false,
    hasF := fun _ => false, typedF := fun _ => false,
    getF := fun _ => Value.vStr "", typevalueF := fun _ v => v }
  [] []

/-- A dirty but read-only source (must not be saved by `write`). -/
def exDirtyRO : Source := .mk
  { sid := 7, identifier := "ro", writable := false, dirty := true,
    cascadeFlag := false,
    hasF := fun _ => false, typedF := fun _ => false,
    getF := fun _ => Value.vStr "", typevalueF := fun _ v => v }
  [] []

/-- A root scope mixing saved and skipped sources. -/
def exRootScope : ScopeData :=
  { sources := [exDirtyW, exCleanW, exDirtyRO], subsectionNames := [],
    cascade := false, writable := true }

/-- A read-only source that defines `parameter` (for the no-writable
set scenario). -/
def exRoHas : Source := .mk
  { sid := 10, identifier := "ro2", writable := false, dirty := false,
    cascadeFlag := false,
    hasF := fun k => k == "parameter", typedF := fun _ => false,
    getF := fun _ => Value.vStr "bar", typevalueF := fun _ v => v }
  [] []

/-- A scope with no writable source in which `parameter` exists. -/
def exScopeNoW : ScopeData :=
  { sources := [exRoHas], subsectionNames := [],
    cascade := false, writable := true }

/-- Trivial leaf sources used as stored subsections. -/
def subLeaf (n : Nat) (ident : String) : Source := .mk
  { sid := n, identifier := ident, writable := false, dirty := false,
    cascadeFlag := false,
    hasF := fun _ => false, typedF := fun _ => false,
    getF := fun _ => Value.vStr "", typevalueF := fun _ v => v }
  [] []

/-- A source with subsections `a` and `b`. -/
def s4a : Source := .mk
  { sid := 20, identifier := "defaults", writable := false, dirty := false,
    cascadeFlag := false,
    hasF := fun _ => false, typedF := fun _ => false,
    getF := fun _ => Value.vStr "", typevalueF := fun _ v => v }
  [] [("a", subLeaf 11 "defaults"), ("b", subLeaf 12 "defaults")]

/-- A source with subsections `b` and `c`. -/
def s4b : Source := .mk
  { sid := 21, identifier := "ini", writable := true, dirty := false,
    cascadeFlag := false,
    hasF := fun _ => false, typedF := fun _ => false,
    getF := fun _ => Value.vStr "", typevalueF := fun _ v => v }
  [] [("b", subLeaf 13 "ini"), ("c", subLeaf 14 "ini")]

/-! ## Infrastructure lemmas -/

theorem scanSources_append_some (c : Bool) (k : String) (l₁ l₂ : List Source)
    (r : SourceProps) (h : scanSources c k l₂ = some r) :
    scanSources c k (l₁ ++ l₂) = some r := by
  induction l₁ with
  | nil => simpa using h
  | cons s rest ih => simp [scanSources, ih]

theorem scanSources_append_none (c : Bool) (k : String) (l₁ l₂ : List Source)
    (h : scanSources c k l₂ = none) :
    scanSources c k (l₁ ++ l₂) = scanSources c k l₁ := by
  induction l₁ with
  | nil => simpa using h
  | cons s rest ih => simp [scanSources, ih]

theorem findInChain_none_has_false (c : Bool) (k : String) (p : SourceProps)
    (ps : List SourceProps) (h : findInChain c k p ps = none) :
    p.hasF k = false := by
  by_cases hp : p.hasF k
  · rw [findInChain.eq_def] at h
    simp [hp] at h
  · simpa using hp

theorem scanSources_false_of_true_none (k : String) (l : List Source)
    (h : scanSources true k l = none) : scanSources false k l = none := by
  induction l with
  | nil => simp [scanSources]
  | cons s rest ih =>
    rw [scanSources] at h
    rcases htail : scanSources true k rest with _ | r
    · rw [htail] at h
      have hhead : findInChain true k s.props s.parents = none := h
      have hhas := findInChain_none_has_false true k s.props s.parents hhead
      rw [scanSources, ih htail, findInChain.eq_def]
      simp [hhas]
    · rw [htail] at h
      exact absurd h (by simp)

theorem applyDirty_spec (effs : List Effect) :
    ∀ (d : Nat → Bool) (i : Nat),
      applyDirty d effs i = if i ∈ dirtyIds effs then true else d i := by
  induction effs with
  | nil => intro d i; simp [applyDirty, dirtyIds]
  | cons e rest ih =>
    intro d i
    cases e with
    | setCall j k2 v => simp [applyDirty, dirtyIds, ih]
    | save j => simp [applyDirty, dirtyIds, ih]
    | markDirty j =>
      rw [applyDirty, ih]
      by_cases hr : i ∈ dirtyIds rest
      · simp [dirtyIds, hr]
      · by_cases hj : i = j <;> simp [dirtyIds, hr, hj]

theorem dirtyIds_append (a b : List Effect) :
    dirtyIds (a ++ b) = dirtyIds a ++ dirtyIds b := by
  induction a with
  | nil => simp [dirtyIds]
  | cons e rest ih => cases e <;> simp [dirtyIds, ih]

theorem dirtyIds_map_markDirty (l : List SourceProps) :
    dirtyIds (l.map (fun p => Effect.markDirty p.sid)) = l.map (fun p => p.sid) := by
  induction l with
  | nil => simp [dirtyIds]
  | cons p rest ih => simp [dirtyIds, ih]

theorem applyValues_map_markDirty (l : List SourceProps)
    (st : Nat → String → Option Value) (i : Nat) (k : String) :
    applyValues st (l.map (fun p => Effect.markDirty p.sid)) i k = st i k := by
  induction l generalizing st with
  | nil => simp [applyValues]
  | cons p rest ih => simp [applyValues, ih]

theorem foldl_guard_append {α β : Type} (p : α → Bool) (f : α → β) :
    ∀ (l : List α) (init : List β),
      l.foldl (fun acc x => if p x then acc ++ [f x] else acc) init
        = init ++ (l.filter p).map f := by
  intro l
  induction l with
  | nil => intro init; simp
  | cons x rest ih =>
    intro init
    by_cases hx : p x <;> simp [List.foldl_cons, List.filter_cons, hx, ih]


theorem getattrChain_nil (k : String) (s : ScopeData) :
    getattrChain k s [] = getattrStep k s [] (.error (.attributeError k)) := by
  simp [getattrChain]

theorem getattrChain_cons (k : String) (s p : ScopeData) (rest : List ScopeData) :
    getattrChain k s (p :: rest)
      = getattrStep k s (p :: rest) (getattrChain k p rest) := by
  simp [getattrChain]

theorem setattrChain_nil (k : String) (v : Value) (s : ScopeData) :
    setattrChain k v s [] = setattrStep k v s ([], some (ConfErr.attributeError k)) := by
  simp [setattrChain]

theorem setattrChain_cons (k : String) (v : Value) (s p : ScopeData)
    (rest : List ScopeData) :
    setattrChain k v s (p :: rest) = setattrStep k v s (setattrChain k v p rest) := by
  simp [setattrChain]

theorem getattrChain_found (k : String) (s : ScopeData) (anc : List ScopeData)
    (vs : SourceProps)
    (hsub : s.subsectionNames.contains k = false)
    (hvs : scanSources s.cascade k s.sources = some vs) :
    getattrChain k s anc = .ok (.value (resolveFound s.cascade k vs (s :: anc))) := by
  have hmem : k ∉ s.subsectionNames := by simpa using hsub
  cases anc with
  | nil => rw [getattrChain_nil]; simp [getattrStep, hmem, hvs]
  | cons p rest => rw [getattrChain_cons]; simp [getattrStep, hmem, hvs]

/-! ## Claims -/

/-- Claim C1: for a scope whose sources `S1..Sn` (priority increasing
with index) each report `has(k)` true, the reverse-priority scan of
`__getattribute__` stops at `Sn`, the highest-priority source, and
attribute-style get of `k` returns the value resolved from `Sn` (its
typed value when `Sn` is typed for `k`, otherwise its raw value with
typed recovery applied). -/
theorem getattr_priority (s : ScopeData) (anc : List ScopeData) (k : String)
    (front : List Source) (sn : Source)
    (hsrc : s.sources = front ++ [sn])
    (hall : ∀ src ∈ s.sources, src.props.hasF k = true)
    (hsub : s.subsectionNames.contains k = false) :
    scanSources s.cascade k s.sources = some sn.props ∧
    getattrChain k s anc =
      .ok (.value (resolveFound s.cascade k sn.props (s :: anc))) := by
  have hsn : sn.props.hasF k = true := hall sn (by simp [hsrc])
  have hchain : findInChain s.cascade k sn.props sn.parents = some sn.props := by
    rw [findInChain.eq_def]; simp [hsn]
  have hone : scanSources s.cascade k [sn] = some sn.props := by
    simp [scanSources, hchain]
  have hscan : scanSources s.cascade k s.sources = some sn.props := by
    rw [hsrc]; exact scanSources_append_some _ _ _ _ _ hone
  exact ⟨hscan, getattrChain_found k s anc sn.props hsub hscan⟩

/-- Witness for C1: in the two-source fixture both sources carry
`parameter`; the scan picks the command-line source (highest
priority), and get returns the value resolved from it — here its raw
string `"7"` coerced to the integer `7` by the defaults typing. -/
theorem getattr_priority_witness :
    scanSources exScope.cascade "parameter" exScope.sources = some exCmdline.props ∧
    getattrChain "parameter" exScope [] =
      .ok (.value (resolveFound exScope.cascade "parameter" exCmdline.props [exScope])) ∧
    getattrChain "parameter" exScope [] = .ok (.value (Value.vInt 7)) := by
  have h := getattr_priority exScope [] "parameter" [exDefaults] exCmdline rfl
    (by decide) (by decide)
  exact ⟨h.1, h.2, by decide⟩

/-- Claim C2: when the value source found for `k` is untyped for `k`,
get scans for a type source in reverse priority order starting at the
current scope, climbing to parent scopes only when cascade is enabled;
with a type source it returns `typeSource.typedValue(k,
valueSource.get(k))`, and with none it returns the raw value
unchanged.  In particular, a low-priority source typed for `k` under a
higher-priority untyped source holding `k`'s raw value yields the
typed coercion of the high-priority raw value. -/
theorem getattr_typed_recovery (s : ScopeData) (anc : List ScopeData) (k : String)
    (vs : SourceProps)
    (hsub : s.subsectionNames.contains k = false)
    (hvs : scanSources s.cascade k s.sources = some vs)
    (hunt : vs.typedF k = false) :
    (∀ ts, findTypeSource s.cascade k (s :: anc) = some ts →
        getattrChain k s anc = .ok (.value (ts.typevalueF k (vs.getF k)))) ∧
    (findTypeSource s.cascade k (s :: anc) = none →
        getattrChain k s anc = .ok (.value (vs.getF k))) ∧
    (s.cascade = false →
        findTypeSource s.cascade k (s :: anc) = findTypeLocal k s.sources) ∧
    (∀ (t : ScopeData) (anc2 : List ScopeData) (s1 s2 : Source),
        t.sources = [s1, s2] → t.subsectionNames.contains k = false →
        s2.props.hasF k = true → s2.props.typedF k = false →
        s1.props.typedF k = true →
        getattrChain k t anc2 =
          .ok (.value (s1.props.typevalueF k (s2.props.getF k)))) := by
  have hget := getattrChain_found k s anc vs hsub hvs
  refine ⟨?_, ?_, ?_, ?_⟩
  · intro ts hts
    rw [hget, resolveFound, hunt]
    simp [hts]
  · intro hnone
    rw [hget, resolveFound, hunt]
    simp [hnone]
  · intro hc
    rw [hc] at hvs ⊢
    rw [findTypeSource]
    cases hl : findTypeLocal k s.sources <;> simp [hl]
  · intro t anc2 s1 s2 hts hsub2 hhas2 hunt2 htyped1
    have h2 : findInChain t.cascade k s2.props s2.parents = some s2.props := by
      rw [findInChain.eq_def]; simp [hhas2]
    have hscan2 : scanSources t.cascade k t.sources = some s2.props := by
      rw [hts]; simp [scanSources, h2]
    have hloc : findTypeLocal k t.sources = some s1.props := by
      rw [hts]; simp [findTypeLocal, hunt2, htyped1]
    have hts3 : findTypeSource t.cascade k (t :: anc2) = some s1.props := by
      rw [findTypeSource]; simp [hloc]
    rw [getattrChain_found k t anc2 s2.props hsub2 hscan2, resolveFound, hunt2]
    simp [hts3]

/-- Witness for C2: the defaults source is typed for `parameter` with
integer semantics, the higher-priority command-line source holds the
untyped string `"7"`; get returns the integer `7`, not the string. -/
theorem getattr_typed_recovery_witness :
    getattrChain "parameter" exScope [] = .ok (.value (Value.vInt 7)) ∧
    exCmdline.props.getF "parameter" = Value.vStr "7" := by
  have h := (getattr_typed_recovery exScope [] "parameter" exCmdline.props
    (by decide)
    (by simp [exScope, exDefaults, exCmdline, scanSources, findInChain,
              Source.props, Source.parents])
    (by decide)).2.2.2
  have h4 := h exScope [] exDefaults exCmdline rfl (by decide) (by decide)
    (by decide) (by decide)
  refine ⟨?_, by decide⟩
  rw [h4]
  decide

/-- Claim C3: a scope with cascade enabled and a parent scope, on a
key found in no local source (nor via any local source's own parent
chain), delegates the whole lookup to the parent scope; the same
configuration with cascade disabled raises `AttributeError` instead. -/
theorem getattr_cascade_fallback (s p : ScopeData) (rest : List ScopeData)
    (k : String)
    (hsub : s.subsectionNames.contains k = false)
    (hnone : scanSources true k s.sources = none) :
    getattrChain k { s with cascade := true } (p :: rest) = getattrChain k p rest ∧
    (∀ anc : List ScopeData,
      getattrChain k { s with cascade := false } anc
        = .error (.attributeError k)) := by
  have hmem : k ∉ s.subsectionNames := by simpa using hsub
  constructor
  · rw [getattrChain_cons]
    simp [getattrStep, hmem, hnone]
  · intro anc
    have hf : scanSources false k s.sources = none :=
      scanSources_false_of_true_none k s.sources hnone
    cases anc with
    | nil => rw [getattrChain_nil]; simp [getattrStep, hmem, hf]
    | cons q qs => rw [getattrChain_cons]; simp [getattrStep, hmem, hf]

/-- Witness for C3: the child scope's only source is empty; with
cascade the lookup returns the parent scope's resolution (the integer
`7`), without cascade it raises `AttributeError`. -/
theorem getattr_cascade_fallback_witness :
    getattrChain "parameter" exChildScope [exScope]
      = getattrChain "parameter" exScope [] ∧
    getattrChain "parameter" { exChildScope with cascade := false } [exScope]
      = .error (.attributeError "parameter") ∧
    getattrChain "parameter" exChildScope [exScope] = .ok (.value (Value.vInt 7)) := by
  have h := getattr_cascade_fallback exChildScope exScope [] "parameter"
    (by decide)
    (by simp [exChildScope, exEmptySrc, scanSources, findInChain,
              Source.props, Source.parents])
  exact ⟨h.1, h.2 [exScope], by decide⟩

/-! ## Infrastructure for the construction and write claims -/

theorem dirtyIds_map_setCall {α : Type} (f : α → Nat) (k : String) (v : Value)
    (l : List α) :
    dirtyIds (l.map (fun x => Effect.setCall (f x) k v)) = [] := by
  induction l with
  | nil => simp [dirtyIds]
  | cons x rest ih => simp [dirtyIds, ih]

theorem applyDirty_of_mem (effs : List Effect) (d : Nat → Bool) (i : Nat)
    (h : i ∈ dirtyIds effs) : applyDirty d effs i = true := by
  rw [applyDirty_spec]; simp [h]

theorem setattr_effects_structure (k : String) (v : Value) (s : ScopeData)
    (anc : List ScopeData) :
    ∃ t, (setattrChain k v s anc).1 = writeEffects k v s.sources ++ t := by
  cases anc with
  | nil =>
    cases hd : findDefining k s.sources with
    | some d =>
      exact ⟨[Effect.setCall d.props.sid k v],
        by rw [setattrChain_nil]; simp [setattrStep, hd]⟩
    | none =>
      by_cases hc : s.cascade
      · exact ⟨[], by rw [setattrChain_nil]; simp [setattrStep, hd, hc]⟩
      · exact ⟨[], by rw [setattrChain_nil]; simp [setattrStep, hd, hc]⟩
  | cons q qs =>
    cases hd : findDefining k s.sources with
    | some d =>
      exact ⟨[Effect.setCall d.props.sid k v],
        by rw [setattrChain_cons]; simp [setattrStep, hd]⟩
    | none =>
      by_cases hc : s.cascade
      · exact ⟨(setattrChain k v q qs).1,
          by rw [setattrChain_cons]; simp [setattrStep, hd, hc]⟩
      · exact ⟨[], by rw [setattrChain_cons]; simp [setattrStep, hd, hc]⟩

theorem addKeys_mem (ks : List String) : ∀ (acc : List String) (k : String),
    k ∈ addKeys acc ks ↔ k ∈ acc ∨ k ∈ ks := by
  induction ks with
  | nil => intro acc k; simp [addKeys]
  | cons k2 rest ih =>
    intro acc k
    rw [addKeys]
    by_cases h2 : k2 ∈ acc
    · rw [if_pos h2, ih]
      constructor
      · rintro (h | h)
        · exact Or.inl h
        · exact Or.inr (List.mem_cons_of_mem _ h)
      · rintro (h | h)
        · exact Or.inl h
        · rcases List.mem_cons.mp h with h | h
          · subst h; exact Or.inl h2
          · exact Or.inr h
    · rw [if_neg h2, ih]
      simp only [List.mem_append, List.mem_singleton, List.mem_cons]
      tauto

theorem addKeys_nodup (ks : List String) : ∀ acc : List String,
    acc.Nodup → (addKeys acc ks).Nodup := by
  induction ks with
  | nil => intro acc h; simpa [addKeys] using h
  | cons k2 rest ih =>
    intro acc h
    rw [addKeys]
    by_cases h2 : k2 ∈ acc
    · rw [if_pos h2]; exact ih acc h
    · rw [if_neg h2]
      refine ih _ ?_
      rw [List.nodup_append]
      exact ⟨h, List.nodup_singleton k2, by simpa [List.disjoint_singleton] using h2⟩

theorem collectKeys_mem (sources : List Source) (k : String) :
    k ∈ collectKeys sources ↔ ∃ src ∈ sources, k ∈ src.subNames := by
  suffices h : ∀ acc : List String,
      (k ∈ sources.foldl (fun a src => addKeys a src.subNames) acc ↔
        k ∈ acc ∨ ∃ src ∈ sources, k ∈ src.subNames) by
    simpa [collectKeys] using h []
  induction sources with
  | nil => intro acc; simp
  | cons s rest ih =>
    intro acc
    rw [List.foldl_cons, ih, addKeys_mem]
    simp only [List.exists_mem_cons_iff]
    tauto

theorem collectKeys_nodup (sources : List Source) : (collectKeys sources).Nodup := by
  suffices h : ∀ acc : List String, acc.Nodup →
      (sources.foldl (fun a src => addKeys a src.subNames) acc).Nodup by
    simpa [collectKeys] using h [] List.nodup_nil
  induction sources with
  | nil => intro acc h; simpa using h
  | cons s rest ih =>
    intro acc h
    rw [List.foldl_cons]
    exact ih _ (addKeys_nodup _ _ h)

theorem mkConfig_sources (n : Nat) (srcs : List Source) (c w : Bool)
    (sk : Option String) : (mkConfig n srcs c w sk).sources = srcs := by
  cases n <;> simp [mkConfig, Config.sources]

theorem mkConfig_cascade (n : Nat) (srcs : List Source) (c w : Bool)
    (sk : Option String) : (mkConfig n srcs c w sk).cascade = c := by
  cases n <;> simp [mkConfig, Config.cascade]

theorem mkConfig_writable (n : Nat) (srcs : List Source) (c w : Bool)
    (sk : Option String) : (mkConfig n srcs c w sk).writable = w := by
  cases n <;> simp [mkConfig, Config.writable]

theorem mkConfig_sectionkey (n : Nat) (srcs : List Source) (c w : Bool)
    (sk : Option String) : (mkConfig n srcs c w sk).sectionkey = sk := by
  cases n <;> simp [mkConfig, Config.sectionkey]

/-- Claim C5: when the highest-priority writable source `W` differs
from the highest-priority source `D` with `has(k)` or `typed(k)` true,
attribute-style set of `k` to `v` calls `set(k, v)` on both `W` and
`D`; afterwards exactly `W`'s dirty flag and the dirty flags of `W`'s
source-parent ancestors are true, while `D`'s dirty flag (when `D` is
not on `W`'s parent chain, as in any well-formed tree) and every other
source's dirty flag are unchanged. -/
theorem setattr_write_split (s : ScopeData) (anc : List ScopeData) (k : String)
    (v : Value) (w d : Source)
    (hw : findWritable s.sources = some w)
    (hd : findDefining k s.sources = some d) :
    (setattrChain k v s anc).2 = none ∧
    (setattrChain k v s anc).1
      = Effect.setCall w.props.sid k v :: Effect.markDirty w.props.sid ::
          (w.parents.map (fun p => Effect.markDirty p.sid)
            ++ [Effect.setCall d.props.sid k v]) ∧
    (∀ (dmap : Nat → Bool) (i : Nat),
      applyDirty dmap (setattrChain k v s anc).1 i
        = if i = w.props.sid ∨ i ∈ w.parents.map (fun p => p.sid) then true
          else dmap i) ∧
    (d.props.sid ≠ w.props.sid →
      d.props.sid ∉ w.parents.map (fun p => p.sid) →
      ∀ dmap : Nat → Bool,
        applyDirty dmap (setattrChain k v s anc).1 d.props.sid
          = dmap d.props.sid) := by
  have hwe : writeEffects k v s.sources
      = Effect.setCall w.props.sid k v :: Effect.markDirty w.props.sid ::
          w.parents.map (fun p => Effect.markDirty p.sid) := by
    simp [writeEffects, hw]
  have heq : setattrChain k v s anc
      = (writeEffects k v s.sources ++ [Effect.setCall d.props.sid k v], none) := by
    cases anc with
    | nil => rw [setattrChain_nil]; simp [setattrStep, hd]
    | cons q qs => rw [setattrChain_cons]; simp [setattrStep, hd]
  have hids : dirtyIds (setattrChain k v s anc).1
      = w.props.sid :: w.parents.map (fun p => p.sid) := by
    rw [heq]
    simp only [dirtyIds_append, hwe, dirtyIds, dirtyIds_map_markDirty]
    simp
  have hdirty : ∀ (dmap : Nat → Bool) (i : Nat),
      applyDirty dmap (setattrChain k v s anc).1 i
        = if i = w.props.sid ∨ i ∈ w.parents.map (fun p => p.sid) then true
          else dmap i := by
    intro dmap i
    rw [applyDirty_spec, hids]
    simp [List.mem_cons]
  refine ⟨by rw [heq], ?_, hdirty, ?_⟩
  · rw [heq, hwe]; simp
  · intro hne hnm dmap
    rw [hdirty]
    simp [hne, hnm]

/-- Witness for C5: in the fixture the writable source is the nested
file source (sid 4, enclosing file sid 9) while `parameter` is defined
by the defaults source (sid 1); set touches both, and only sids 4 and
9 become dirty. -/
theorem setattr_write_split_witness :
    (setattrChain "parameter" (Value.vStr "x") exScopeWD []).2 = none ∧
    (setattrChain "parameter" (Value.vStr "x") exScopeWD []).1
      = [Effect.setCall 4 "parameter" (Value.vStr "x"), Effect.markDirty 4,
         Effect.markDirty 9, Effect.setCall 1 "parameter" (Value.vStr "x")] ∧
    applyDirty (fun _ => false)
      (setattrChain "parameter" (Value.vStr "x") exScopeWD []).1 4 = true ∧
    applyDirty (fun _ => false)
      (setattrChain "parameter" (Value.vStr "x") exScopeWD []).1 9 = true ∧
    applyDirty (fun _ => false)
      (setattrChain "parameter" (Value.vStr "x") exScopeWD []).1 1 = false := by
  have h := setattr_write_split exScopeWD [] "parameter" (Value.vStr "x")
    exNested exDefaults
    (by simp [exScopeWD, exDefaults, exNested, findWritable, Source.props])
    (by simp [exScopeWD, exDefaults, exNested, findDefining, Source.props])
  exact ⟨h.1, by decide, by decide, by decide, by decide⟩

/-- Claim C6: with cascade disabled, a writable source present, and no
source defining or typing `k`, attribute-style set raises the
unknown-key error, but by that time the highest-priority writable
source has already been mutated: it holds the new value for `k` and
its dirty flag (and its source-parent ancestors' dirty flags) are true
— the failing set is not atomic with respect to source state. -/
theorem setattr_error_not_atomic (s : ScopeData) (k : String) (v : Value)
    (w : Source)
    (hc : s.cascade = false)
    (hw : findWritable s.sources = some w)
    (hd : findDefining k s.sources = none) :
    ∀ anc : List ScopeData,
      (setattrChain k v s anc).2 = some (ConfErr.attributeError k) ∧
      (setattrChain k v s anc).1
        = Effect.setCall w.props.sid k v :: Effect.markDirty w.props.sid ::
            w.parents.map (fun p => Effect.markDirty p.sid) ∧
      (∀ st : Nat → String → Option Value,
        applyValues st (setattrChain k v s anc).1 w.props.sid k = some v) ∧
      (∀ dmap : Nat → Bool,
        applyDirty dmap (setattrChain k v s anc).1 w.props.sid = true ∧
        ∀ p ∈ w.parents,
          applyDirty dmap (setattrChain k v s anc).1 p.sid = true) := by
  intro anc
  have hwe : writeEffects k v s.sources
      = Effect.setCall w.props.sid k v :: Effect.markDirty w.props.sid ::
          w.parents.map (fun p => Effect.markDirty p.sid) := by
    simp [writeEffects, hw]
  have heq : setattrChain k v s anc
      = (writeEffects k v s.sources, some (ConfErr.attributeError k)) := by
    cases anc with
    | nil => rw [setattrChain_nil]; simp [setattrStep, hd, hc]
    | cons q qs => rw [setattrChain_cons]; simp [setattrStep, hd, hc]
  have hids : dirtyIds (setattrChain k v s anc).1
      = w.props.sid :: w.parents.map (fun p => p.sid) := by
    rw [heq]
    simp only [hwe, dirtyIds, dirtyIds_map_markDirty]
  refine ⟨by rw [heq], by rw [heq, hwe], ?_, ?_⟩
  · intro st
    rw [heq, hwe]
    simp only [applyValues, applyValues_map_markDirty]
    simp
  · intro dmap
    constructor
    · exact applyDirty_of_mem _ _ _ (by rw [hids]; simp)
    · intro p hp
      exact applyDirty_of_mem _ _ _ (by rw [hids]; simp [List.mem_cons]; right; exact ⟨p, hp, rfl⟩)

/-- Witness for C6: the one-source scope's set of `parameter` fails,
yet the writable nested source (sid 4) already stores the new value
and sids 4 and 9 are dirty. -/
theorem setattr_error_not_atomic_witness :
    (setattrChain "parameter" (Value.vStr "x") exScopeW6 []).2
      = some (ConfErr.attributeError "parameter") ∧
    applyValues (fun _ _ => none)
      (setattrChain "parameter" (Value.vStr "x") exScopeW6 []).1 4 "parameter"
      = some (Value.vStr "x") ∧
    applyDirty (fun _ => false)
      (setattrChain "parameter" (Value.vStr "x") exScopeW6 []).1 4 = true ∧
    applyDirty (fun _ => false)
      (setattrChain "parameter" (Value.vStr "x") exScopeW6 []).1 9 = true := by
  have h := setattr_error_not_atomic exScopeW6 "parameter" (Value.vStr "x")
    exNested rfl
    (by simp [exScopeW6, exNested, findWritable, Source.props])
    (by simp [exScopeW6, exNested, findDefining, Source.props]) []
  exact ⟨h.1, by decide, by decide, by decide⟩

/-- Counterexample for C7: a scope with no writable source, cascade
disabled, in which a read-only source defines `parameter`: the set
does NOT fail — step 2 updates the defining source and the call
returns without error, contradicting the claim that the operation
fails whenever no source is writable. -/
theorem setattr_no_writable_counterexample :
    exScopeNoW.sources = [exRoHas] ∧
    exRoHas.props.writable = false ∧
    exScopeNoW.cascade = false ∧
    findWritable exScopeNoW.sources = none ∧
    (setattrChain "parameter" (Value.vStr "x") exScopeNoW []).2 = none ∧
    (setattrChain "parameter" (Value.vStr "x") exScopeNoW []).1
      = [Effect.setCall 10 "parameter" (Value.vStr "x")] := by
  refine ⟨rfl, by decide, rfl, ?_, by decide, by decide⟩
  simp [exScopeNoW, exRoHas, findWritable, Source.props]

/-- Amended C7: when no source is writable, the write-target step is
skipped without failing and performs no mutation; the set then fails
(with no effects at all) exactly when additionally no source has
`has(k)` or `typed(k)` true and no cascade delegation to a parent
scope applies; when a defining source exists, the set silently
succeeds, updating only that source. -/
theorem setattr_no_writable_amended (s : ScopeData) (anc : List ScopeData)
    (k : String) (v : Value)
    (hw : findWritable s.sources = none) :
    (findDefining k s.sources = none → (s.cascade = false ∨ anc = []) →
      setattrChain k v s anc = ([], some (ConfErr.attributeError k))) ∧
    (∀ d, findDefining k s.sources = some d →
      setattrChain k v s anc = ([Effect.setCall d.props.sid k v], none)) := by
  have hwe : writeEffects k v s.sources = [] := by simp [writeEffects, hw]
  constructor
  · intro hd hnc
    rcases hnc with hc | hnil
    · cases anc with
      | nil => rw [setattrChain_nil]; simp [setattrStep, hd, hc, hwe]
      | cons q qs => rw [setattrChain_cons]; simp [setattrStep, hd, hc, hwe]
    · subst hnil
      rw [setattrChain_nil]
      by_cases hc : s.cascade <;> simp [setattrStep, hd, hc, hwe]
  · intro d hd
    cases anc with
    | nil => rw [setattrChain_nil]; simp [setattrStep, hd, hwe]
    | cons q qs => rw [setattrChain_cons]; simp [setattrStep, hd, hwe]

/-- Witness for the amended C7: on the no-writable-source scope, set
of an undefined key fails with no effects, while set of the defined
`parameter` succeeds touching only the read-only defining source. -/
theorem setattr_no_writable_amended_witness :
    setattrChain "other" (Value.vStr "x") exScopeNoW []
      = ([], some (ConfErr.attributeError "other")) ∧
    setattrChain "parameter" (Value.vStr "x") exScopeNoW []
      = ([Effect.setCall 10 "parameter" (Value.vStr "x")], none) := by
  have h1 := (setattr_no_writable_amended exScopeNoW [] "other" (Value.vStr "x")
    (by simp [exScopeNoW, exRoHas, findWritable, Source.props])).1
    (by simp [exScopeNoW, exRoHas, findDefining, Source.props]) (Or.inl rfl)
  have h2 := (setattr_no_writable_amended exScopeNoW [] "parameter" (Value.vStr "x")
    (by simp [exScopeNoW, exRoHas, findWritable, Source.props])).2 exRoHas
    (by simp [exScopeNoW, exRoHas, findDefining, Source.props])
  exact ⟨h1, h2⟩

/-- Claim C8: `write` climbs parent links to the root scope and calls
`save` exactly on the root-attached sources whose `writable` and
`dirty` flags are both true; a source lacking either flag gets no save
call, and every save call names a root source. -/
theorem write_saves_writable_dirty (s : ScopeData) (anc : List ScopeData) :
    writeConfig s anc
      = ((rootScope s anc).sources.filter
          (fun src => src.props.writable && src.props.dirty)).map
          (fun src => Effect.save src.props.sid) ∧
    ∀ i : Nat, Effect.save i ∈ writeConfig s anc ↔
      ∃ src ∈ (rootScope s anc).sources,
        src.props.sid = i ∧ src.props.writable = true ∧ src.props.dirty = true := by
  have h1 : writeConfig s anc
      = ((rootScope s anc).sources.filter
          (fun src => src.props.writable && src.props.dirty)).map
          (fun src => Effect.save src.props.sid) := by
    unfold writeConfig
    rw [foldl_guard_append]
    simp
  refine ⟨h1, ?_⟩
  intro i
  rw [h1]
  simp only [List.mem_map, List.mem_filter, Bool.and_eq_true, Effect.save.injEq]
  constructor
  · rintro ⟨src, ⟨hm, hw, hd⟩, hsid⟩
    exact ⟨src, hm, hsid.symm ▸ rfl, hw, hd⟩
  · rintro ⟨src, hm, hsid, hw, hd⟩
    exact ⟨src, ⟨hm, hw, hd⟩, by rw [hsid]⟩

/-- Witness for C8: from a leaf scope under the mixed root, only the
writable-and-dirty source (sid 5) is saved; the clean writable source
(sid 6) and the dirty read-only source (sid 7) are not. -/
theorem write_saves_writable_dirty_witness :
    writeConfig exChildScope [exRootScope] = [Effect.save 5] ∧
    Effect.save 5 ∈ writeConfig exChildScope [exRootScope] ∧
    Effect.save 6 ∉ writeConfig exChildScope [exRootScope] ∧
    Effect.save 7 ∉ writeConfig exChildScope [exRootScope] := by
  have h := write_saves_writable_dirty exChildScope [exRootScope]
  exact ⟨h.1.trans (by decide), by decide, by decide, by decide⟩

/-- Claim C9: with cascade enabled and a parent scope, a set of a key
defined in no local source runs the local write-target step first —
mutating and dirtying the child's highest-priority writable source —
and then delegates to the parent scope, whose own write-target step
also sets and dirties the parent's highest-priority writable source;
one logical set thus mutates a writable source at every scope it
passes through. -/
theorem setattr_cascade_double_write (s p : ScopeData) (rest : List ScopeData)
    (k : String) (v : Value) (w : Source)
    (hc : s.cascade = true)
    (hw : findWritable s.sources = some w)
    (hd : findDefining k s.sources = none) :
    (setattrChain k v s (p :: rest)).1
      = Effect.setCall w.props.sid k v :: Effect.markDirty w.props.sid ::
          (w.parents.map (fun q => Effect.markDirty q.sid)
            ++ (setattrChain k v p rest).1) ∧
    (setattrChain k v s (p :: rest)).2 = (setattrChain k v p rest).2 ∧
    (∀ wp, findWritable p.sources = some wp →
      Effect.setCall wp.props.sid k v ∈ (setattrChain k v s (p :: rest)).1 ∧
      Effect.markDirty wp.props.sid ∈ (setattrChain k v s (p :: rest)).1 ∧
      ∀ dmap : Nat → Bool,
        applyDirty dmap (setattrChain k v s (p :: rest)).1 w.props.sid = true ∧
        applyDirty dmap (setattrChain k v s (p :: rest)).1 wp.props.sid = true) := by
  have hwe : writeEffects k v s.sources
      = Effect.setCall w.props.sid k v :: Effect.markDirty w.props.sid ::
          w.parents.map (fun q => Effect.markDirty q.sid) := by
    simp [writeEffects, hw]
  have heq : setattrChain k v s (p :: rest)
      = (writeEffects k v s.sources ++ (setattrChain k v p rest).1,
         (setattrChain k v p rest).2) := by
    rw [setattrChain_cons]; simp [setattrStep, hd, hc]
  refine ⟨?_, by rw [heq], ?_⟩
  · rw [heq, hwe]; simp
  · intro wp hwp
    obtain ⟨t, ht⟩ := setattr_effects_structure k v p rest
    have hwep : writeEffects k v p.sources
        = Effect.setCall wp.props.sid k v :: Effect.markDirty wp.props.sid ::
            wp.parents.map (fun q => Effect.markDirty q.sid) := by
      simp [writeEffects, hwp]
    refine ⟨?_, ?_, ?_⟩
    · rw [heq]
      simp only [ht, hwep]
      simp
    · rw [heq]
      simp only [ht, hwep]
      simp
    · intro dmap
      constructor
      · apply applyDirty_of_mem
        rw [heq]
        simp only [dirtyIds_append, hwe, dirtyIds, dirtyIds_map_markDirty]
        simp
      · apply applyDirty_of_mem
        rw [heq]
        simp only [ht, dirtyIds_append, hwep, dirtyIds, dirtyIds_map_markDirty]
        simp

/-- Witness for C9: the cascade-enabled child (writable nested source,
sid 4, enclosing file sid 9) delegates `parameter` to the parent
two-source scope, whose writable command-line source (sid 2) is also
set and dirtied; the full trace shows both write targets mutated. -/
theorem setattr_cascade_double_write_witness :
    (setattrChain "parameter" (Value.vStr "x") exScopeC9 [exScope]).1
      = [Effect.setCall 4 "parameter" (Value.vStr "x"), Effect.markDirty 4,
         Effect.markDirty 9, Effect.setCall 2 "parameter" (Value.vStr "x"),
         Effect.markDirty 2, Effect.setCall 2 "parameter" (Value.vStr "x")] ∧
    (setattrChain "parameter" (Value.vStr "x") exScopeC9 [exScope]).2 = none ∧
    applyDirty (fun _ => false)
      (setattrChain "parameter" (Value.vStr "x") exScopeC9 [exScope]).1 4 = true ∧
    applyDirty (fun _ => false)
      (setattrChain "parameter" (Value.vStr "x") exScopeC9 [exScope]).1 2 = true := by
  have h := setattr_cascade_double_write exScopeC9 exScope [] "parameter"
    (Value.vStr "x") exNested rfl
    (by simp [exScopeC9, exNested, findWritable, Source.props])
    (by simp [exScopeC9, exNested, findDefining, Source.props])
  have h3 := h.2.2 exCmdline
    (by simp [exScope, exDefaults, exCmdline, findWritable, Source.props])
  exact ⟨by decide, by decide, (h3.2.2 (fun _ => false)).1, (h3.2.2 (fun _ => false)).2⟩

/-- Claim C10: `LayeredConfig.set(scope, key, value, sourceId)` calls
`set(key, value)` on each source whose `identifier` equals `sourceId`,
in order, leaves every dirty flag unchanged, and silently performs
nothing when no identifier matches. -/
theorem setDirect_targets_identifier (s : ScopeData) (k : String) (v : Value)
    (sourceid : String) :
    setDirect s k v sourceid
      = ((s.sources.filter (fun src => src.props.identifier == sourceid)).map
          (fun src => Effect.setCall src.props.sid k v)) ∧
    (∀ (dmap : Nat → Bool) (i : Nat),
      applyDirty dmap (setDirect s k v sourceid) i = dmap i) ∧
    ((∀ src ∈ s.sources, (src.props.identifier == sourceid) = false) →
      setDirect s k v sourceid = []) := by
  have h1 : setDirect s k v sourceid
      = ((s.sources.filter (fun src => src.props.identifier == sourceid)).map
          (fun src => Effect.setCall src.props.sid k v)) := by
    unfold setDirect
    rw [foldl_guard_append]
    simp
  refine ⟨h1, ?_, ?_⟩
  · intro dmap i
    rw [h1, applyDirty_spec, dirtyIds_map_setCall]
    simp
  · intro hno
    rw [h1]
    have hf : s.sources.filter (fun src => src.props.identifier == sourceid) = [] := by
      rw [List.filter_eq_nil_iff]
      intro a ha
      simp [hno a ha]
    rw [hf]
    simp

/-- Witness for C10: on the two-source fixture, `sourceId = "defaults"`
sets only the defaults source (sid 1) with no dirty marking; an
unmatched `sourceId` performs nothing. -/
theorem setDirect_targets_identifier_witness :
    setDirect exScope "parameter" (Value.vStr "x") "defaults"
      = [Effect.setCall 1 "parameter" (Value.vStr "x")] ∧
    setDirect exScope "parameter" (Value.vStr "x") "nope" = [] ∧
    applyDirty (fun _ => false)
      (setDirect exScope "parameter" (Value.vStr "x") "defaults") 1 = false := by
  have h := (setDirect_targets_identifier exScope "parameter" (Value.vStr "x")
    "nope").2.2 (by decide)
  exact ⟨by decide, h, by decide⟩

/-- Claim C4: construction builds the subsection mapping as the union
of all sources' subsection names (first-seen order, no duplicates — a
name is registered exactly when some source carries it), and each
child scope's source list has exactly one entry per parent source, in
the same order: the source's own subsection when it has one, otherwise
an `emptyPlaceholder` freshly built from that source (as parent), its
identifier and writable flag, and the scope's cascade flag; the child
carries the same cascade/writable flags and its name as sectionkey. -/
theorem init_subsection_union (n : Nat) (sources : List Source) (c w : Bool)
    (sk : Option String) :
    (mkConfig (n + 1) sources c w sk).subsections.map Prod.fst
      = collectKeys sources ∧
    (∀ k, k ∈ collectKeys sources ↔ ∃ src ∈ sources, k ∈ src.subNames) ∧
    (collectKeys sources).Nodup ∧
    (mkConfig (n + 1) sources c w sk).subsections
      = (collectKeys sources).map (fun k =>
          (k, mkConfig n (childSources sources k c) c w (some k))) ∧
    (∀ k, childSources sources k c
      = sources.map (fun src =>
          match src.subsection k with
          | some sub => sub
          | none => emptyPlaceholder src c)) ∧
    (∀ p ∈ (mkConfig (n + 1) sources c w sk).subsections,
        p.2.sources = childSources sources p.1 c ∧
        p.2.cascade = c ∧ p.2.writable = w ∧ p.2.sectionkey = some p.1) := by
  have hsubs : (mkConfig (n + 1) sources c w sk).subsections
      = (collectKeys sources).map (fun k =>
          (k, mkConfig n (childSources sources k c) c w (some k))) := by
    simp [mkConfig, Config.subsections]
  refine ⟨?_, collectKeys_mem sources, collectKeys_nodup sources, hsubs,
    fun k => rfl, ?_⟩
  · rw [hsubs]
    generalize collectKeys sources = ks
    induction ks with
    | nil => simp
    | cons a l ih => simp [ih]
  · intro p hp
    rw [hsubs] at hp
    obtain ⟨k, hk, rfl⟩ := List.mem_map.mp hp
    exact ⟨mkConfig_sources n _ c w _, mkConfig_cascade n _ c w _,
      mkConfig_writable n _ c w _, mkConfig_sectionkey n _ c w _⟩

/-- Witness for C4 at the spec's example: `S1` with subsections
`{a, b}` and `S2` with `{b, c}` yield exactly the keys `a, b, c` in
first-seen order; the child for `a` pairs `S1`'s stored subsection
(sid 11) with an empty placeholder standing in for `S2` (inheriting
sid 21, `S2`'s identifier and writable flag, and recording `S2`'s
props at the head of its parent chain). -/
theorem init_subsection_union_witness :
    (mkConfig 1 [s4a, s4b] false true none).subsections.map Prod.fst
      = ["a", "b", "c"] ∧
    ((mkConfig 1 [s4a, s4b] false true none).subsections.map
        (fun p => p.2.sources.map (fun src => src.props.sid)))
      = [[11, 21], [12, 13], [20, 14]] ∧
    ((mkConfig 1 [s4a, s4b] false true none).subsections.map
        (fun p => p.2.sources.map (fun src => src.parents.map (fun q => q.sid))))
      = [[[], [21]], [[], []], [[20], []]] ∧
    ((mkConfig 1 [s4a, s4b] false true none).subsections.map
        (fun p => p.2.sources.map (fun src => src.props.identifier)))
      = [["defaults", "ini"], ["defaults", "ini"], ["defaults", "ini"]] ∧
    ((mkConfig 1 [s4a, s4b] false true none).subsections.map
        (fun p => p.2.sources.map (fun src => src.props.hasF "b")))
      = [[false, false], [false, false], [false, false]] := by
  have h := init_subsection_union 0 [s4a, s4b] false true none
  exact ⟨h.1.trans (by decide), by decide, by decide, by decide, by decide⟩
